import Mathlib

/-!
Verification of the Miracle-Grue toolpathing core against its source.

Shallow embedding of the relevant parts of the repository:
  * `segmenter.cc`  (Segmenter::updateSlicesTriangle, SliceTable bucketing)
  * `pather.cc`     (Pather::generatePaths direction alternation, boundary
                     seeding, Pather::cleanPaths)
  * `gcoder.cc`     (GCoder::writeGCodeConfig, calcInfillExtrusion,
                     calcInSetExtrusion, writeInfills/writeSupport,
                     polygonLeadInAndLeadOut)

`Scalar` (IEEE double in the source) is modelled as `ℚ`: every claim here is
about the exact arithmetic the algorithms perform, none hinges on rounding.
C++ `unsigned int`/`size_t` are modelled as `ℕ`; where a subtraction or a
wrap matters the modelling choice is stated at the definition.
-/

namespace MG

/-! ## Geometry: points and triangles -/

/-- 2D point (`Point2Type` / `libthing::LineSegment2` endpoints). -/
structure Point2 where
  x : ℚ
  y : ℚ
deriving DecidableEq

instance : Sub Point2 := ⟨fun p q => ⟨p.x - q.x, p.y - q.y⟩⟩

/-- `Point2Type::squaredMagnitude` (used by `Pather::cleanPaths`). -/
def Point2.squaredMagnitude (p : Point2) : ℚ := p.x * p.x + p.y * p.y

/-- 3D point (`Point3Type`). -/
structure Point3 where
  x : ℚ
  y : ℚ
  z : ℚ
deriving DecidableEq

/-- Triangle (`TriangleType`): three `Point3` vertices. -/
structure Triangle where
  v0 : Point3
  v1 : Point3
  v2 : Point3
deriving DecidableEq

/-- Modelled from the spec: `Triangle.zSort` (its source, `mgl.h`, is not under
`src/`).  "has a zSort operation returning its three vertices ordered by
ascending Z". -/
def zSort (t : Triangle) : Point3 × Point3 × Point3 :=
  if t.v0.z ≤ t.v1.z then
    if t.v1.z ≤ t.v2.z then (t.v0, t.v1, t.v2)
    else if t.v0.z ≤ t.v2.z then (t.v0, t.v2, t.v1)
    else (t.v2, t.v0, t.v1)
  else
    if t.v0.z ≤ t.v2.z then (t.v1, t.v0, t.v2)
    else if t.v1.z ≤ t.v2.z then (t.v1, t.v2, t.v0)
    else (t.v2, t.v1, t.v0)

theorem zSort_sorted (t : Triangle) :
    (zSort t).1.z ≤ (zSort t).2.1.z ∧ (zSort t).2.1.z ≤ (zSort t).2.2.z := by
  unfold zSort
  rcases t with ⟨a, b, c⟩
  by_cases h01 : a.z ≤ b.z <;> by_cases h12 : b.z ≤ c.z <;>
    by_cases h02 : a.z ≤ c.z <;>
    simp only [h01, h12, h02, if_true, if_false] <;>
    constructor <;> dsimp <;> linarith

/-! ## Segmenter (`segmenter.cc`) -/

/-- `SliceTable`: entry `i` lists the indices of the triangles bucketed to
slice `i` (`std::vector<TriangleIndices>`). -/
abbrev SliceTable := List (List ℕ)

/-- Nominal Z of slice `s`: `Z(s) = firstSliceZ + s · layerH`
(spec §3, `LayerMeasure`). -/
def sliceZ (firstSliceZ layerH : ℚ) (s : ℕ) : ℚ := firstSliceZ + s * layerH

/-- Modelled from the spec: `LayerMeasure::zToLayerAbove` (its source, `mgl.cc`,
is not under `src/`).  "given a Z returns the index of the first layer whose
top is ≥ Z": the least `i : ℕ` with `firstSliceZ + i · layerH ≥ z`, clamped
to 0 (the C++ function returns `unsigned int`). -/
def specZToLayerAbove (firstSliceZ layerH z : ℚ) : ℕ :=
  (⌈(z - firstSliceZ) / layerH⌉).toNat

/-- Appends `tid` to every entry of the table whose index (counting from
`base`) lies in `[lo, hi]`.  This is the loop
`for (i = minSliceIndex; i <= maxSliceIndex; i++) sliceTable[i].push_back(id)`
of `Segmenter::updateSlicesTriangle`; the loop only ever touches entries that
exist, because the table was just resized to at least `maxSliceIndex + 1`. -/
def markRange (tid lo hi : ℕ) : ℕ → SliceTable → SliceTable
  | _, [] => []
  | base, e :: rest =>
      (if lo ≤ base ∧ base ≤ hi then e ++ [tid] else e) ::
        markRange tid lo hi (base + 1) rest

/-- `Segmenter::updateSlicesTriangle` (segmenter.cc lines 39–68), parametrised
by the `zToLayerAbove` tape-measure function.  `unsigned int` is modelled as
`ℕ`; the C++ subtraction `maxSliceIndex - minSliceIndex` is truncated
subtraction here, which agrees with the unsigned value whenever
`zToLayerAbove` is monotone (then `maxSliceIndex0 ≥ minSliceIndex` follows
from `a.z ≤ c.z` after `zSort`, so no underflow occurs). -/
def updateSlicesTriangle (ztla : ℚ → ℕ) (table : SliceTable)
    (newTriangleId : ℕ) (t : Triangle) : SliceTable :=
  let s := zSort t
  let a := s.1
  let c := s.2.2
  let minSliceIndex0 := ztla a.z
  let minSliceIndex :=
    if 0 < minSliceIndex0 then minSliceIndex0 - 1 else minSliceIndex0
  let maxSliceIndex0 := ztla c.z
  let maxSliceIndex :=
    if 1 < maxSliceIndex0 - minSliceIndex then maxSliceIndex0 - 1
    else maxSliceIndex0
  let grown :=
    if table.length ≤ maxSliceIndex then
      table ++ List.replicate (maxSliceIndex + 1 - table.length) []
    else table
  markRange newTriangleId minSliceIndex maxSliceIndex 0 grown

/-- `minSliceIndex` as computed by `updateSlicesTriangle`. -/
def segMinIdx (ztla : ℚ → ℕ) (t : Triangle) : ℕ :=
  if 0 < ztla (zSort t).1.z then ztla (zSort t).1.z - 1 else ztla (zSort t).1.z

/-- `maxSliceIndex` as computed by `updateSlicesTriangle`. -/
def segMaxIdx (ztla : ℚ → ℕ) (t : Triangle) : ℕ :=
  if 1 < ztla (zSort t).2.2.z - segMinIdx ztla t then ztla (zSort t).2.2.z - 1
  else ztla (zSort t).2.2.z

theorem markRange_length (tid lo hi : ℕ) :
    ∀ (base : ℕ) (l : SliceTable), (markRange tid lo hi base l).length = l.length := by
  intro base l
  induction l generalizing base with
  | nil => rfl
  | cons e rest ih => simp [markRange, ih]

theorem markRange_getD (tid lo hi : ℕ) :
    ∀ (base j : ℕ) (l : SliceTable),
      (markRange tid lo hi base l).getD j [] =
        if lo ≤ base + j ∧ base + j ≤ hi ∧ j < l.length
        then l.getD j [] ++ [tid] else l.getD j [] := by
  intro base j l
  induction l generalizing base j with
  | nil => simp [markRange]
  | cons e rest ih =>
    cases j with
    | zero =>
      simp only [markRange, List.getD_cons_zero, Nat.add_zero]
      by_cases h1 : lo ≤ base ∧ base ≤ hi
      · simp [h1, h1.1, h1.2, Nat.succ_pos]
      · rcases not_and_or.mp h1 with h | h <;> simp [h1, h]
    | succ j' =>
      simp only [markRange, List.getD_cons_succ]
      rw [ih (base + 1) j']
      have harith : base + 1 + j' = base + (j' + 1) := by omega
      rw [harith]
      simp only [List.length_cons]
      congr 1
      simp only [eq_iff_iff]
      constructor
      · rintro ⟨h1, h2, h3⟩; exact ⟨h1, h2, by omega⟩
      · rintro ⟨h1, h2, h3⟩; exact ⟨h1, h2, by omega⟩

/-- The padded table reads the same as the original through `getD _ []`. -/
theorem grown_getD (table : SliceTable) (n j : ℕ) :
    (table ++ List.replicate n ([] : List ℕ)).getD j [] = table.getD j [] := by
  unfold List.getD
  rcases lt_or_le j table.length with h | h
  · rw [List.get?_append h]
  · rw [List.get?_append_right h]
    rw [List.get?_eq_none.mpr h]
    rcases h2 : (List.replicate n ([] : List ℕ)).get? (j - table.length) with _ | e
    · rfl
    · have hmem := List.get?_mem h2
      have he : e = [] := List.eq_of_mem_replicate hmem
      simp [he]

/-- Full characterisation of `updateSlicesTriangle`: the table is grown to
`maxIdx + 1` entries when needed, `tid` is appended to exactly the entries in
`[minIdx, maxIdx]`, and all other entries are unchanged. -/
theorem updateSlicesTriangle_spec (ztla : ℚ → ℕ) (table : SliceTable)
    (tid : ℕ) (t : Triangle) :
    (updateSlicesTriangle ztla table tid t).length =
        max table.length (segMaxIdx ztla t + 1) ∧
    (∀ j, segMinIdx ztla t ≤ j → j ≤ segMaxIdx ztla t →
      (updateSlicesTriangle ztla table tid t).getD j [] =
        table.getD j [] ++ [tid]) ∧
    (∀ j, ¬(segMinIdx ztla t ≤ j ∧ j ≤ segMaxIdx ztla t) →
      (updateSlicesTriangle ztla table tid t).getD j [] = table.getD j []) := by
  set minIdx := segMinIdx ztla t with hminIdx
  set maxIdx := segMaxIdx ztla t with hmaxIdx
  have hunfold : updateSlicesTriangle ztla table tid t =
      markRange tid minIdx maxIdx 0
        (if table.length ≤ maxIdx then
          table ++ List.replicate (maxIdx + 1 - table.length) []
        else table) := rfl
  set grown : SliceTable :=
    (if table.length ≤ maxIdx then
      table ++ List.replicate (maxIdx + 1 - table.length) []
    else table) with hgrown
  have hglen : grown.length = max table.length (maxIdx + 1) := by
    rw [hgrown]
    by_cases h : table.length ≤ maxIdx
    · simp only [h, if_true, List.length_append, List.length_replicate]
      omega
    · simp only [h, if_false]
      omega
  have hgget : ∀ j, grown.getD j [] = table.getD j [] := by
    intro j
    rw [hgrown]
    by_cases h : table.length ≤ maxIdx
    · simp only [h, if_true]
      exact grown_getD table _ j
    · simp [h]
  refine ⟨?_, ?_, ?_⟩
  · rw [hunfold, markRange_length, hglen]
  · intro j h1 h2
    rw [hunfold, markRange_getD]
    have hjlen : j < grown.length := by
      rw [hglen]; omega
    simp only [Nat.zero_add]
    rw [if_pos ⟨h1, h2, hjlen⟩]
    rw [hgget]
  · intro j h
    rw [hunfold, markRange_getD]
    simp only [Nat.zero_add]
    rw [if_neg (by tauto)]
    exact hgget j

/-! ## Claim theorems for the Segmenter -/

/-- **C3.** For every triangle processed by `Segmenter::updateSlicesTriangle`,
with its vertices z-sorted as `a, b, c`: the triangle's index is appended to
exactly the SliceTable entries in `[minIdx, maxIdx]`, where
`minIdx = zToLayerAbove a.z` decremented by 1 when it is positive and
`maxIdx = zToLayerAbove c.z` decremented by 1 only when
`maxIdx - minIdx > 1`; the table is grown to `maxIdx + 1` entries when
needed, and entries outside `[minIdx, maxIdx]` are unchanged. -/
theorem c3_updateSlicesTriangle_exact (ztla : ℚ → ℕ) (table : SliceTable)
    (tid : ℕ) (t : Triangle) :
    let a := (zSort t).1
    let c := (zSort t).2.2
    let minIdx := if 0 < ztla a.z then ztla a.z - 1 else ztla a.z
    let maxIdx := if 1 < ztla c.z - minIdx then ztla c.z - 1 else ztla c.z
    (updateSlicesTriangle ztla table tid t).length =
        max table.length (maxIdx + 1) ∧
    (∀ j, minIdx ≤ j → j ≤ maxIdx →
      (updateSlicesTriangle ztla table tid t).getD j [] =
        table.getD j [] ++ [tid]) ∧
    (∀ j, ¬(minIdx ≤ j ∧ j ≤ maxIdx) →
      (updateSlicesTriangle ztla table tid t).getD j [] = table.getD j []) :=
  updateSlicesTriangle_spec ztla table tid t

/-- Witness for C3 at a concrete input: constant tape measure 2, flat
triangle; `minIdx = 1`, `maxIdx = 2`, so entry 2 of the empty table receives
triangle index 7. -/
theorem c3_updateSlicesTriangle_exact_witness :
    (updateSlicesTriangle (fun _ => 2) [] 7 ⟨⟨0,0,0⟩, ⟨0,0,0⟩, ⟨0,0,0⟩⟩).getD 2 [] =
      ([] : SliceTable).getD 2 [] ++ [7] :=
  (c3_updateSlicesTriangle_exact (fun _ => 2) [] 7 ⟨⟨0,0,0⟩, ⟨0,0,0⟩, ⟨0,0,0⟩⟩).2.1
    2 (by decide) (by decide)

/-- **C2, counterexample.** The claim as stated fails: a triangle whose top
vertex lies exactly at `Z(3) = 3` has a Z-range overlapping the slab
`[Z(3) − ε, Z(4) + ε]` (with the spec's ε = 10⁻⁶; indeed with any ε ≥ 0), yet
because `maxIdx = zToLayerAbove 3 = 3` is decremented (the span is wider than
one slice), slice 3's entry does not receive the triangle. -/
theorem c2_counterexample :
    (min (min ((1:ℚ)/2) 2) 3 ≤ sliceZ 0 1 (3 + 1) + 1/1000000 ∧
      sliceZ 0 1 3 - 1/1000000 ≤ max (max ((1:ℚ)/2) 2) 3) ∧
    ¬ 0 ∈ (updateSlicesTriangle (specZToLayerAbove 0 1) [] 0
            ⟨⟨0,0,1/2⟩, ⟨0,0,2⟩, ⟨0,0,3⟩⟩).getD 3 [] := by
  have hz1 : specZToLayerAbove 0 1 ((1:ℚ)/2) = 1 := by
    unfold specZToLayerAbove
    rw [show (((1:ℚ)/2 - 0)/1 : ℚ) = 1/2 by norm_num]
    rw [show (⌈((1:ℚ)/2)⌉ : ℤ) = 1 from by rw [Int.ceil_eq_iff] ; norm_num]
    rfl
  have hz3 : specZToLayerAbove 0 1 (3:ℚ) = 3 := by
    unfold specZToLayerAbove
    rw [show (((3:ℚ) - 0)/1 : ℚ) = 3 by norm_num]
    rw [show (⌈(3:ℚ)⌉ : ℤ) = 3 from by norm_num]
    rfl
  have ht : updateSlicesTriangle (specZToLayerAbove 0 1) [] 0
      ⟨⟨0,0,1/2⟩, ⟨0,0,2⟩, ⟨0,0,3⟩⟩ = [[0], [0], [0]] := by
    unfold updateSlicesTriangle
    norm_num [zSort, hz1, hz3, markRange, List.replicate_succ]
  refine ⟨⟨?_, ?_⟩, ?_⟩
  · norm_num [sliceZ]
  · norm_num [sliceZ]
  · rw [ht]
    simp

/-- **C2, amended.** Coverage holds for the half-open slab `(Z(s), Z(s+1)]`:
if the z-sorted triangle satisfies `a.z ≤ Z(s+1)` and `c.z > Z(s)`, then
slice `s`'s entry contains the triangle's index.  (The ε-margins of the
original claim, and its closed lower slab boundary, are not honoured by the
code.) -/
theorem c2_coverage_amended (f h : ℚ) (hh : 0 < h) (table : SliceTable)
    (tid : ℕ) (t : Triangle) (s : ℕ)
    (hlow : (zSort t).1.z ≤ sliceZ f h (s + 1))
    (hhigh : sliceZ f h s < (zSort t).2.2.z) :
    tid ∈ (updateSlicesTriangle (specZToLayerAbove f h) table tid t).getD s [] := by
  set az := (zSort t).1.z with haz
  set cz := (zSort t).2.2.z with hcz
  have hA : specZToLayerAbove f h az ≤ s + 1 := by
    unfold specZToLayerAbove
    rw [Int.toNat_le]
    rw [Int.ceil_le]
    rw [div_le_iff₀ hh]
    unfold sliceZ at hlow
    push_cast at hlow ⊢
    linarith
  have hC : s + 1 ≤ specZToLayerAbove f h cz := by
    unfold specZToLayerAbove
    have hlt : (s : ℤ) < ⌈(cz - f) / h⌉ := by
      rw [Int.lt_ceil]
      rw [lt_div_iff₀ hh]
      unfold sliceZ at hhigh
      push_cast
      linarith
    omega
  have hmin : segMinIdx (specZToLayerAbove f h) t ≤ s := by
    unfold segMinIdx
    rw [← haz]
    split <;> omega
  have hmax : s ≤ segMaxIdx (specZToLayerAbove f h) t := by
    have hm := hmin
    unfold segMaxIdx
    rw [← hcz]
    split <;> omega
  have hspec :=
    (updateSlicesTriangle_spec (specZToLayerAbove f h) table tid t).2.1 s hmin hmax
  rw [hspec]
  simp

/-- Witness for the amended C2 at a concrete input: the same triangle as in
the counterexample is covered on slice 2 (its Z-range crosses `(Z(2), Z(3)]`). -/
theorem c2_coverage_amended_witness :
    0 ∈ (updateSlicesTriangle (specZToLayerAbove 0 1) [] 0
          ⟨⟨0,0,1/2⟩, ⟨0,0,2⟩, ⟨0,0,3⟩⟩).getD 2 [] :=
  c2_coverage_amended 0 1 (by norm_num) [] 0 ⟨⟨0,0,1/2⟩, ⟨0,0,2⟩, ⟨0,0,3⟩⟩ 2
    (by norm_num [zSort, sliceZ]) (by norm_num [zSort, sliceZ])

/-! ## Pather data model (`pather.h` types used by `pather.cc`) -/

/-- `PathLabel::Type` (spec §3: type ∈ {OUTLINE, INSET, INFILL, CONNECTION}). -/
inductive PathType
  | outline
  | inset
  | infill
  | connection
deriving DecidableEq

/-- `PathLabel::Owner` (spec §3: owner ∈ {MODEL, SUPPORT}). -/
inductive PathOwner
  | model
  | support
deriving DecidableEq

/-- Modelled from the spec: `PathLabel` (its header is not under `src/`):
a (type, owner, shell-index) tuple. -/
structure PathLabel where
  myType : PathType
  myOwner : PathOwner
  myValue : ℤ
deriving DecidableEq

/-- `PathLabel::isInset`. -/
def PathLabel.isInset (l : PathLabel) : Bool := l.myType = PathType.inset

/-- `PathLabel::isConnection`. -/
def PathLabel.isConnection (l : PathLabel) : Bool := l.myType = PathType.connection

/-- `LabeledOpenPath`: an `OpenPath` (ordered point sequence) with its label. -/
structure LabeledOpenPath where
  myLabel : PathLabel
  myPath : List Point2
deriving DecidableEq

/-- `*(path.fromStart())`: the first point of an open path.  The C++ iterator
dereference requires a nonempty path; the default value stands for the
indeterminate result on an empty one. -/
def pathStart (p : List Point2) : Point2 := p.headD ⟨0, 0⟩

/-- `*(path.fromEnd())`: the last point of an open path. -/
def pathEnd (p : List Point2) : Point2 := p.getLastD ⟨0, 0⟩

/-! ## `Pather::cleanPaths` (pather.cc lines 247–307)

The walk holds two adjacent iterators `current`/`next`.  When a pair is
joined, the concatenated path is written into `next` (and `next` inherits
`current`'s label if that label is INSET), `current` is queued on `eraseMe`,
and the walk advances — so the merged element *is* the new `current`.  The
queued elements are erased after the walk.  The recursion below produces
exactly the surviving sequence.  (The short-path drop branch at the top of
the loop is compiled out by `if(false)` in the source and is not modelled.) -/

/-- The join test of one `current`/`next` step: the pair is joined iff the
gap from `current`'s end to `next`'s start is within `coarseness`
(squared-magnitude comparison, as in the source), both labels are
CONNECTION-or-INSET, and neither path is a closed loop with more than two
points. -/
def JoinCond (coarseness : ℚ) (cur nxt : LabeledOpenPath) : Prop :=
  (pathEnd cur.myPath - pathStart nxt.myPath).squaredMagnitude ≤
      coarseness * coarseness ∧
  (cur.myLabel.isConnection || cur.myLabel.isInset) = true ∧
  (nxt.myLabel.isConnection || nxt.myLabel.isInset) = true ∧
  ¬(pathStart cur.myPath = pathEnd cur.myPath ∧ 2 < cur.myPath.length) ∧
  ¬(pathStart nxt.myPath = pathEnd nxt.myPath ∧ 2 < nxt.myPath.length)

instance (coarseness : ℚ) (cur nxt : LabeledOpenPath) :
    Decidable (JoinCond coarseness cur nxt) := by
  unfold JoinCond
  infer_instance

/-- The merged element produced by a join: `current`'s path followed by
`next`'s points after the first (`appendPoints(++fromStart, end)`), carrying
`current`'s label when that label is INSET and `next`'s label otherwise. -/
def joinPaths (cur nxt : LabeledOpenPath) : LabeledOpenPath :=
  { myLabel := if cur.myLabel.isInset then cur.myLabel else nxt.myLabel
    myPath := cur.myPath ++ nxt.myPath.tail }

/-- The `current`/`next` walk of `cleanPaths`, after erasure of the queued
elements: `cur` is the element the current iterator denotes. -/
def cleanPathsGo (coarseness : ℚ) : LabeledOpenPath → List LabeledOpenPath →
    List LabeledOpenPath
  | cur, [] => [cur]
  | cur, nxt :: rest =>
      if JoinCond coarseness cur nxt then
        cleanPathsGo coarseness (joinPaths cur nxt) rest
      else
        cur :: cleanPathsGo coarseness nxt rest

/-- `Pather::cleanPaths` on a `LabeledOpenPaths` list. -/
def cleanPaths (coarseness : ℚ) (result : List LabeledOpenPath) :
    List LabeledOpenPath :=
  match result with
  | [] => []
  | x :: xs => cleanPathsGo coarseness x xs

/-! Helper lemmas for the `cleanPaths` claims. -/

theorem joinPaths_path_ne_nil (cur nxt : LabeledOpenPath)
    (hcur : cur.myPath ≠ []) : (joinPaths cur nxt).myPath ≠ [] := by
  simp only [joinPaths]
  intro habs
  exact hcur (List.append_eq_nil.mp habs).1

theorem cleanPathsGo_ne_nil (c : ℚ) (cur : LabeledOpenPath)
    (xs : List LabeledOpenPath) : cleanPathsGo c cur xs ≠ [] := by
  induction xs generalizing cur with
  | nil => simp [cleanPathsGo]
  | cons nxt rest ih =>
    unfold cleanPathsGo
    by_cases h : JoinCond c cur nxt
    · rw [if_pos h]
      exact ih _
    · rw [if_neg h]
      simp

theorem cleanPathsGo_nonempty_paths (c : ℚ) (cur : LabeledOpenPath)
    (xs : List LabeledOpenPath) (hcur : cur.myPath ≠ [])
    (hxs : ∀ p ∈ xs, p.myPath ≠ []) :
    ∀ q ∈ cleanPathsGo c cur xs, q.myPath ≠ [] := by
  induction xs generalizing cur with
  | nil =>
    intro q hq
    simp only [cleanPathsGo, List.mem_singleton] at hq
    subst hq
    exact hcur
  | cons nxt rest ih =>
    have hnxt : nxt.myPath ≠ [] := hxs nxt (List.mem_cons_self _ _)
    have hrest : ∀ p ∈ rest, p.myPath ≠ [] :=
      fun p hp => hxs p (List.mem_cons_of_mem _ hp)
    intro q hq
    unfold cleanPathsGo at hq
    by_cases h : JoinCond c cur nxt
    · rw [if_pos h] at hq
      exact ih (joinPaths cur nxt) (joinPaths_path_ne_nil cur nxt hcur) hrest q hq
    · rw [if_neg h] at hq
      rcases List.mem_cons.mp hq with hq | hq
      · subst hq; exact hcur
      · exact ih nxt hnxt hrest q hq

/-- The head of the walk's output starts where `cur` starts (merging only
ever appends to the right of the running element). -/
theorem cleanPathsGo_head_start (c : ℚ) (cur : LabeledOpenPath)
    (xs : List LabeledOpenPath) (hcur : cur.myPath ≠ []) :
    ∀ y, (cleanPathsGo c cur xs).head? = some y →
      pathStart y.myPath = pathStart cur.myPath := by
  induction xs generalizing cur with
  | nil =>
    intro y hy
    simp only [cleanPathsGo, List.head?_cons, Option.some.injEq] at hy
    rw [← hy]
  | cons nxt rest ih =>
    intro y hy
    unfold cleanPathsGo at hy
    by_cases h : JoinCond c cur nxt
    · rw [if_pos h] at hy
      have hstep := ih (joinPaths cur nxt) (joinPaths_path_ne_nil cur nxt hcur) y hy
      rw [hstep]
      show pathStart (cur.myPath ++ nxt.myPath.tail) = pathStart cur.myPath
      unfold pathStart
      rcases hp : cur.myPath with _ | ⟨p, ps⟩
      · exact absurd hp hcur
      · simp
    · rw [if_neg h] at hy
      simp only [List.head?_cons, Option.some.injEq] at hy
      rw [← hy]

/-- If `cur` can join no successor at all (label not CONNECTION/INSET, or a
closed loop with more than two points), the walk keeps `cur` at the head. -/
theorem cleanPathsGo_head_blocked (c : ℚ) (cur : LabeledOpenPath)
    (xs : List LabeledOpenPath) (h : ∀ b, ¬ JoinCond c cur b) :
    (cleanPathsGo c cur xs).head? = some cur := by
  cases xs with
  | nil => rfl
  | cons nxt rest =>
    unfold cleanPathsGo
    rw [if_neg (h nxt)]
    rfl

/-- Every adjacent pair surviving one `cleanPaths` walk fails the join test:
whatever blocked a pair during the walk still blocks it in the output. -/
theorem cleanPathsGo_chain (c : ℚ) (cur : LabeledOpenPath)
    (xs : List LabeledOpenPath) (hcur : cur.myPath ≠ [])
    (hxs : ∀ p ∈ xs, p.myPath ≠ []) :
    List.Chain' (fun a b => ¬ JoinCond c a b) (cleanPathsGo c cur xs) := by
  induction xs generalizing cur with
  | nil => simp [cleanPathsGo]
  | cons nxt rest ih =>
    have hnxt : nxt.myPath ≠ [] := hxs nxt (List.mem_cons_self _ _)
    have hrest : ∀ p ∈ rest, p.myPath ≠ [] :=
      fun p hp => hxs p (List.mem_cons_of_mem _ hp)
    unfold cleanPathsGo
    by_cases h : JoinCond c cur nxt
    · rw [if_pos h]
      exact ih (joinPaths cur nxt) (joinPaths_path_ne_nil cur nxt hcur) hrest
    · rw [if_neg h]
      rcases hhead : cleanPathsGo c nxt rest with _ | ⟨y, ys⟩
      · exact absurd hhead (cleanPathsGo_ne_nil c nxt rest)
      · have hchain := ih nxt hnxt hrest
        rw [hhead] at hchain
        refine List.chain'_cons.mpr ⟨?_, hchain⟩
        have hy? : (cleanPathsGo c nxt rest).head? = some y := by rw [hhead]; rfl
        -- case split on which conjunct of the failed (cur, nxt) test blocks
        by_cases hA : (pathEnd cur.myPath - pathStart nxt.myPath).squaredMagnitude ≤ c * c
        case neg =>
          -- the distance blocks, and y starts where nxt starts
          have hs : pathStart y.myPath = pathStart nxt.myPath :=
            cleanPathsGo_head_start c nxt rest hnxt y hy?
          intro hj
          exact hA (by rw [← hs]; exact hj.1)
        by_cases hB : (cur.myLabel.isConnection || cur.myLabel.isInset) = true
        case neg =>
          intro hj
          exact hB hj.2.1
        by_cases hD : pathStart cur.myPath = pathEnd cur.myPath ∧ 2 < cur.myPath.length
        case pos =>
          intro hj
          exact hj.2.2.2.1 hD
        by_cases hC : (nxt.myLabel.isConnection || nxt.myLabel.isInset) = true
        case neg =>
          -- nxt can join nothing as current, so y = nxt
          have hblock : ∀ b, ¬ JoinCond c nxt b := fun b hj => hC hj.2.1
          have hy : y = nxt := by
            have := cleanPathsGo_head_blocked c nxt rest hblock
            rw [hy?] at this
            exact Option.some.inj this
          rw [hy]
          exact h
        by_cases hE : pathStart nxt.myPath = pathEnd nxt.myPath ∧ 2 < nxt.myPath.length
        case pos =>
          have hblock : ∀ b, ¬ JoinCond c nxt b := fun b hj => hj.2.2.2.1 hE
          have hy : y = nxt := by
            have := cleanPathsGo_head_blocked c nxt rest hblock
            rw [hy?] at this
            exact Option.some.inj this
          rw [hy]
          exact h
        -- all five conditions hold: contradiction with the failed test
        exact absurd ⟨hA, hB, hC, hD, hE⟩ h

/-- A list whose adjacent pairs all fail the join test is a fixed point of
`cleanPaths`. -/
theorem cleanPaths_of_chain (c : ℚ) (l : List LabeledOpenPath)
    (h : List.Chain' (fun a b => ¬ JoinCond c a b) l) :
    cleanPaths c l = l := by
  cases l with
  | nil => rfl
  | cons x xs =>
    show cleanPathsGo c x xs = x :: xs
    induction xs generalizing x with
    | nil => rfl
    | cons nxt rest ih =>
      have h1 : ¬ JoinCond c x nxt := (List.chain'_cons.mp h).1
      have h2 := (List.chain'_cons.mp h).2
      unfold cleanPathsGo
      rw [if_neg h1]
      congr 1
      exact ih nxt h2


/-- Unfolding lemma for `Point2` subtraction. -/
theorem Point2.sub_def (p q : Point2) : p - q = ⟨p.x - q.x, p.y - q.y⟩ := rfl

/-! ## Claim theorems for `cleanPaths` -/

/-- **C4, counterexample.** The claim as stated fails on the labels: when a
CONNECTION `current` is joined with an INSET `next`, the surviving merged
element carries `next`'s INSET label, not `current`'s label — the source
writes the concatenation into `next` and erases `current`, propagating
`current`'s label only when it is INSET. -/
theorem c4_counterexample :
    cleanPaths 1
        [⟨⟨PathType.connection, PathOwner.model, -1⟩, [⟨0,0⟩, ⟨1,0⟩]⟩,
         ⟨⟨PathType.inset, PathOwner.model, 0⟩, [⟨1,0⟩, ⟨2,0⟩]⟩] =
      [⟨⟨PathType.inset, PathOwner.model, 0⟩, [⟨0,0⟩, ⟨1,0⟩, ⟨2,0⟩]⟩] ∧
    (⟨PathType.inset, PathOwner.model, 0⟩ : PathLabel) ≠
      ⟨PathType.connection, PathOwner.model, -1⟩ := by
  constructor
  · have hj : JoinCond 1
        ⟨⟨PathType.connection, PathOwner.model, -1⟩, [⟨0,0⟩, ⟨1,0⟩]⟩
        ⟨⟨PathType.inset, PathOwner.model, 0⟩, [⟨1,0⟩, ⟨2,0⟩]⟩ := by
      refine ⟨?_, ?_, ?_, ?_, ?_⟩ <;>
        norm_num [pathStart, pathEnd, Point2.sub_def, Point2.squaredMagnitude,
          PathLabel.isConnection, PathLabel.isInset]
    show cleanPathsGo 1 _ _ = _
    conv_lhs => rw [cleanPathsGo]
    rw [if_pos hj]
    show [joinPaths _ _] = _
    simp only [joinPaths, PathLabel.isInset]
    norm_num
    decide
  · intro habs
    exact absurd (congrArg PathLabel.myType habs) (by simp)

/-- **C4, amended.** For every walked adjacent pair (current, next): if the
gap from current's end to next's start is at most `coarseness`, both labels
have type in {INSET, CONNECTION}, and neither path is a closed loop with
more than 2 points, then current is removed and next is replaced by the
concatenation of current with next's points after the first, the merged
element keeping next's label unless current's label is INSET, which is
propagated; pairs not meeting all three conditions are left unjoined and
unchanged, the walk moving on to (next, next+1). -/
theorem c4_cleanPaths_join_pair (c : ℚ) (cur nxt : LabeledOpenPath)
    (rest : List LabeledOpenPath) :
    (JoinCond c cur nxt →
      cleanPaths c (cur :: nxt :: rest) =
        cleanPaths c
          (⟨if cur.myLabel.isInset then cur.myLabel else nxt.myLabel,
            cur.myPath ++ nxt.myPath.tail⟩ :: rest)) ∧
    (¬ JoinCond c cur nxt →
      cleanPaths c (cur :: nxt :: rest) = cur :: cleanPaths c (nxt :: rest)) := by
  constructor
  · intro h
    show cleanPathsGo c cur (nxt :: rest) = _
    conv_lhs => rw [cleanPathsGo]
    rw [if_pos h]
    rfl
  · intro h
    show cleanPathsGo c cur (nxt :: rest) = _
    conv_lhs => rw [cleanPathsGo]
    rw [if_neg h]
    rfl

/-- Witness for the amended C4: a joinable concrete pair is merged with
next's path replaced and current removed. -/
theorem c4_cleanPaths_join_pair_witness :
    cleanPaths 1
        [⟨⟨PathType.connection, PathOwner.model, -1⟩, [⟨0,0⟩, ⟨1,0⟩]⟩,
         ⟨⟨PathType.inset, PathOwner.model, 0⟩, [⟨1,0⟩, ⟨2,0⟩]⟩] =
      cleanPaths 1
        [⟨if (⟨PathType.connection, PathOwner.model, -1⟩ : PathLabel).isInset
          then ⟨PathType.connection, PathOwner.model, -1⟩
          else ⟨PathType.inset, PathOwner.model, 0⟩,
          [⟨0,0⟩, ⟨1,0⟩] ++ [(⟨1,0⟩ : Point2), ⟨2,0⟩].tail⟩] :=
  (c4_cleanPaths_join_pair 1
      ⟨⟨PathType.connection, PathOwner.model, -1⟩, [⟨0,0⟩, ⟨1,0⟩]⟩
      ⟨⟨PathType.inset, PathOwner.model, 0⟩, [⟨1,0⟩, ⟨2,0⟩]⟩ []).1
    (by
      refine ⟨?_, ?_, ?_, ?_, ?_⟩ <;>
        norm_num [pathStart, pathEnd, Point2.sub_def, Point2.squaredMagnitude,
          PathLabel.isConnection, PathLabel.isInset])

/-- **C5.** `cleanPaths` is idempotent: a second run changes nothing.  The
hypothesis restricts to lists of nonempty paths — the C++ function
dereferences `fromStart()`/`fromEnd()` of every element, so an empty path is
outside its domain. -/
theorem c5_cleanPaths_idempotent (c : ℚ) (l : List LabeledOpenPath)
    (hne : ∀ p ∈ l, p.myPath ≠ []) :
    cleanPaths c (cleanPaths c l) = cleanPaths c l := by
  cases l with
  | nil => rfl
  | cons x xs =>
    have hx : x.myPath ≠ [] := hne x (List.mem_cons_self _ _)
    have hxs : ∀ p ∈ xs, p.myPath ≠ [] :=
      fun p hp => hne p (List.mem_cons_of_mem _ hp)
    show cleanPaths c (cleanPathsGo c x xs) = cleanPathsGo c x xs
    exact cleanPaths_of_chain c _ (cleanPathsGo_chain c x xs hx hxs)

/-- Witness for C5 at a concrete list (a joinable CONNECTION/INSET pair). -/
theorem c5_cleanPaths_idempotent_witness :
    cleanPaths 1 (cleanPaths 1
        [⟨⟨PathType.connection, PathOwner.model, -1⟩, [⟨0,0⟩, ⟨1,0⟩]⟩,
         ⟨⟨PathType.inset, PathOwner.model, 0⟩, [⟨1,0⟩, ⟨2,0⟩]⟩]) =
      cleanPaths 1
        [⟨⟨PathType.connection, PathOwner.model, -1⟩, [⟨0,0⟩, ⟨1,0⟩]⟩,
         ⟨⟨PathType.inset, PathOwner.model, 0⟩, [⟨1,0⟩, ⟨2,0⟩]⟩] :=
  c5_cleanPaths_idempotent 1 _ (by
    intro p hp
    rcases List.mem_cons.mp hp with h | h
    · subst h; simp
    · rcases List.mem_cons.mp h with h | h
      · subst h; simp
      · exact absurd h (List.not_mem_nil p))

/-! ## `Pather::generatePaths` (pather.cc lines 49–245): raster direction and
optimizer boundaries -/

/-- `axis_e`. -/
inductive AxisE
  | xAxis
  | yAxis
deriving DecidableEq

/-- The slice of `GrueConfig` consumed by `Pather::generatePaths`. -/
structure PatherGrueConfig where
  doRaft : Bool
  raftAligned : Bool
  raftLayers : ℕ
  doOutlines : Bool
  doInsets : Bool
  doInfills : Bool
  doSupport : Bool
  infillDensity : ℚ
  roofLayerCount : ℕ
  floorLayerCount : ℕ

/-- One step of the `direction` boolean (pather.cc lines 86–92): flip, except
when rafting with `raftAligned` set and `1 < currentSlice < raftLayers`. -/
def directionStep (cfg : PatherGrueConfig) (currentSlice : ℕ)
    (direction : Bool) : Bool :=
  if cfg.doRaft && decide (1 < currentSlice) &&
      decide (currentSlice < cfg.raftLayers) && cfg.raftAligned then
    direction
  else
    !direction

/-- The `direction` value in effect while processing layer `i`, for a run
with the default slice window (all layers processed, `currentSlice` counting
from 0, `direction` initialised to `false` before the loop). -/
def directionAt (cfg : PatherGrueConfig) : ℕ → Bool
  | 0 => directionStep cfg 0 false
  | i + 1 => directionStep cfg (i + 1) (directionAt cfg i)

/-- The raster axis of layer `i`: `axis_e axis = direction ? X_AXIS : Y_AXIS`
(pather.cc line 173). -/
def rasterAxisAt (cfg : PatherGrueConfig) (i : ℕ) : AxisE :=
  if directionAt cfg i then AxisE.xAxis else AxisE.yAxis

/-- **C6.** The raster-direction boolean flips at every processed layer,
except for layer indices `i` with `2 ≤ i < raftLayers` when rafting is
enabled and `raftAligned` is set; consequently, in every configuration
without an aligned raft, consecutive layers alternate raster axes. -/
theorem c6_direction_alternation (cfg : PatherGrueConfig) :
    (∀ i d, ¬(cfg.doRaft = true ∧ cfg.raftAligned = true ∧
        2 ≤ i ∧ i < cfg.raftLayers) → directionStep cfg i d = !d) ∧
    (∀ i d, (cfg.doRaft = true ∧ cfg.raftAligned = true ∧
        2 ≤ i ∧ i < cfg.raftLayers) → directionStep cfg i d = d) ∧
    (¬(cfg.doRaft = true ∧ cfg.raftAligned = true) →
      ∀ i, rasterAxisAt cfg (i + 1) ≠ rasterAxisAt cfg i) := by
  refine ⟨?_, ?_, ?_⟩
  · intro i d h
    unfold directionStep
    rw [if_neg ?_]
    intro habs
    simp only [Bool.and_eq_true, decide_eq_true_eq] at habs
    exact h ⟨habs.1.1.1, habs.2, by omega, habs.1.2⟩
  · intro i d h
    unfold directionStep
    rw [if_pos ?_]
    simp only [Bool.and_eq_true, decide_eq_true_eq]
    exact ⟨⟨⟨h.1, by omega⟩, h.2.2.2⟩, h.2.1⟩
  · intro h i
    have hflip : directionAt cfg (i + 1) = !(directionAt cfg i) := by
      show directionStep cfg (i + 1) (directionAt cfg i) = _
      unfold directionStep
      rw [if_neg ?_]
      intro habs
      simp only [Bool.and_eq_true, decide_eq_true_eq] at habs
      exact h ⟨habs.1.1.1, habs.2⟩
    unfold rasterAxisAt
    rw [hflip]
    cases directionAt cfg i <;> simp

/-- Witness for C6 at a concrete configuration without a raft: layers 0 and 1
raster along different axes. -/
theorem c6_direction_alternation_witness :
    rasterAxisAt ⟨false, false, 0, true, true, true, false, 1/10, 0, 0⟩ 1 ≠
      rasterAxisAt ⟨false, false, 0, true, true, true, false, 1/10, 0, 0⟩ 0 :=
  (c6_direction_alternation _).2.2 (by simp) 0

/-- A layer's region data consumed by the boundary-seeding part of
`generatePaths`.  Loops are modelled as their point sequences. -/
structure LayerRegions where
  outlines : List (List Point2)
  interiorLoops : List (List Point2)
  supportLoops : List (List Point2)

/-- `hasInfill && hasSolidLayers` gate (pather.cc lines 160–167): interior
loops become optimizer boundaries only when both are false. -/
def addInteriorCond (cfg : PatherGrueConfig) : Bool :=
  !(cfg.doInfills && decide (0 < cfg.infillDensity)) &&
  !(decide (0 < cfg.roofLayerCount) || decide (0 < cfg.floorLayerCount))

/-- The sequence of loops passed to `optimizer->addBoundaries` for one layer
(pather.cc lines 158–190), parametrised by `loopsOffset` (implemented
elsewhere in the repository), which outsets the support loops by 0.01 before
they are added. -/
def layerBoundaries (loopsOffset : List (List Point2) → ℚ → List (List Point2))
    (cfg : PatherGrueConfig) (regions : LayerRegions) : List (List Point2) :=
  regions.outlines ++
  (if addInteriorCond cfg then regions.interiorLoops else []) ++
  (if cfg.doRaft || cfg.doSupport then
    loopsOffset regions.supportLoops (1/100) else [])

/-- **C9.** A layer's `interiorLoops` are added to the optimizer as
boundaries if and only if infill is effectively disabled (`doInfills` false
or `infillDensity ≤ 0`) and there are no solid layers (`roofLayerCount = 0`
and `floorLayerCount = 0`); otherwise the boundary list is exactly the
outlines followed by the support boundaries. -/
theorem c9_interior_boundaries (loopsOffset : List (List Point2) → ℚ →
      List (List Point2)) (cfg : PatherGrueConfig) (regions : LayerRegions) :
    layerBoundaries loopsOffset cfg regions =
      regions.outlines ++
      (if (¬cfg.doInfills = true ∨ cfg.infillDensity ≤ 0) ∧
          cfg.roofLayerCount = 0 ∧ cfg.floorLayerCount = 0
        then regions.interiorLoops else []) ++
      (if cfg.doRaft || cfg.doSupport then
        loopsOffset regions.supportLoops (1/100) else []) := by
  unfold layerBoundaries
  congr 2
  by_cases hcond : (¬cfg.doInfills = true ∨ cfg.infillDensity ≤ 0) ∧
      cfg.roofLayerCount = 0 ∧ cfg.floorLayerCount = 0
  · rw [if_pos hcond, if_pos ?_]
    unfold addInteriorCond
    simp only [Bool.and_eq_true, Bool.not_eq_true', Bool.and_eq_false_iff,
      Bool.or_eq_false_iff, decide_eq_false_iff_not, not_lt]
    constructor
    · rcases hcond.1 with h | h
      · left; exact Bool.not_eq_true _ ▸ h
      · right; exact h
    · exact ⟨by omega, by omega⟩
  · rw [if_neg hcond, if_neg ?_]
    unfold addInteriorCond
    simp only [Bool.and_eq_true, Bool.not_eq_true', Bool.and_eq_false_iff,
      Bool.or_eq_false_iff, decide_eq_false_iff_not, not_lt]
    intro habs
    refine hcond ⟨?_, by omega, by omega⟩
    rcases habs.1 with h | h
    · left; simp [h]
    · right; exact h

/-! ## GCoder (`gcoder.cc`) -/

/-- Modelled from the spec: `Extrusion` profile (`gcoder.h` is not under
`src/`): "Extrusion holds feedrate (scaled by a global factor) and
cross-section width". -/
structure Extrusion where
  feedrate : ℚ
  crossSectionWidth : ℚ
deriving DecidableEq

/-- Modelled from the spec: `Extruder` static configuration (`gcoder.h` is
not under `src/`): id, volumetric flag, feed diameter, and the per-group
extrusion-profile names resolved by the `calc*Extrusion` family. -/
structure Extruder where
  id : ℕ
  isVolumetric : Bool
  feedDiameter : ℚ
  firstLayerExtrusionProfile : String
  insetsExtrusionProfile : String
  infillsExtrusionProfile : String
  outlinesExtrusionProfile : String

/-- Fallback for out-of-range extruder indexing (undefined behaviour in the
C++; every claim below uses in-range indices). -/
def defaultExtruderValue : Extruder := ⟨0, false, 0, "", "", "", ""⟩

/-- The slice of `GrueConfig` consumed by the GCoder functions under
verification. -/
structure GcoderGrueConfig where
  extruders : List Extruder
  extrusionProfiles : List (String × Extrusion)
  scalingFactor : ℚ
  doInfills : Bool
  doInsets : Bool
  doOutlines : Bool
  doSupport : Bool

/-- `GCoder::calcInfillExtrusion(unsigned, unsigned, Extrusion&)`
(gcoder.cc lines 383–403): resolve the first-layer or infill profile name,
look it up in `extrusionProfiles`; a missing profile throws a
`GcoderException` (modelled as `Except.error` carrying the message),
otherwise the profile is assigned and its feedrate scaled. -/
def calcInfillExtrusion (cfg : GcoderGrueConfig) (extruderId sliceId : ℕ) :
    Except String Extrusion :=
  let profileName :=
    if sliceId = 0 then
      (cfg.extruders.getD extruderId defaultExtruderValue).firstLayerExtrusionProfile
    else
      (cfg.extruders.getD extruderId defaultExtruderValue).infillsExtrusionProfile
  match cfg.extrusionProfiles.lookup profileName with
  | none => Except.error ("Failed to find extrusion profile " ++ profileName)
  | some p => Except.ok { p with feedrate := p.feedrate * cfg.scalingFactor }

/-- `GCoder::calcInSetExtrusion(unsigned, unsigned, unsigned, unsigned,
Extrusion&)` (gcoder.cc lines 427–452).  The source assigns
`extrusion = it->second` inside the else branch and then assigns
`extrusion = it->second` once more immediately after the if/else before
scaling; both assignments are kept here as two `let` bindings.  The third
and fourth parameters (insetId, insetCount) are anonymous and unused in the
source; the incoming `extrusion` models the by-reference out-parameter. -/
def calcInSetExtrusion (cfg : GcoderGrueConfig)
    (extruderId sliceId insetId insetCount : ℕ) (extrusion : Extrusion) :
    Except String Extrusion :=
  let profileName :=
    if sliceId = 0 then
      (cfg.extruders.getD extruderId defaultExtruderValue).firstLayerExtrusionProfile
    else
      (cfg.extruders.getD extruderId defaultExtruderValue).insetsExtrusionProfile
  match cfg.extrusionProfiles.lookup profileName with
  | none => Except.error ("Failed to find extrusion profile " ++ profileName)
  | some p =>
      let extrusion := p
      let extrusion := p
      Except.ok { extrusion with feedrate := extrusion.feedrate * cfg.scalingFactor }

/-- The canonicalised version following the spec's words: a single profile
assignment followed by the feedrate scaling. -/
def calcInSetExtrusionCanonical (cfg : GcoderGrueConfig)
    (extruderId sliceId insetId insetCount : ℕ) (extrusion : Extrusion) :
    Except String Extrusion :=
  let profileName :=
    if sliceId = 0 then
      (cfg.extruders.getD extruderId defaultExtruderValue).firstLayerExtrusionProfile
    else
      (cfg.extruders.getD extruderId defaultExtruderValue).insetsExtrusionProfile
  match cfg.extrusionProfiles.lookup profileName with
  | none => Except.error ("Failed to find extrusion profile " ++ profileName)
  | some p =>
      let extrusion := p
      Except.ok { extrusion with feedrate := extrusion.feedrate * cfg.scalingFactor }

/-- **C8.** `calcInSetExtrusion(unsigned, unsigned, unsigned, unsigned,
Extrusion&)` is extensionally equal to the canonicalised single-assign-and-
scale version: the second consecutive assignment of the same found profile
makes the first redundant, so removing one of the two assignments does not
change the function's result for any input. -/
theorem c8_calcInSetExtrusion_canonical (cfg : GcoderGrueConfig)
    (extruderId sliceId insetId insetCount : ℕ) (extrusion : Extrusion) :
    calcInSetExtrusion cfg extruderId sliceId insetId insetCount extrusion =
      calcInSetExtrusionCanonical cfg extruderId sliceId insetId insetCount
        extrusion := rfl

/-- Output effects of a GCoder emission routine: the lines written to the
G-code stream, and the messages written to the logger (`Log::info` /
`Log::severe`). -/
structure GcodeOut where
  out : List String
  log : List String
deriving DecidableEq

/-- Modelled from the spec: `Gantry::snort` (retract; its source is not
under `src/`) emits one retraction motion command. -/
def snortLines (extrusion : Extrusion) : List String :=
  ["G1 F" ++ toString extrusion.feedrate ++ " (snort)"]

/-- Modelled from the spec: `GCoder::writePath` (not under `src/`) emits one
`G1` motion command per path point. -/
def writePathLines (path : List Point2) : List String :=
  path.map (fun p => "G1 X" ++ toString p.x ++ " Y" ++ toString p.y)

/-- `GCoder::writeInfills` (gcoder.cc lines 230–255): emit the group header
comment, resolve the extrusion profile (the throw point), then
snort/paths/snort.  A `GcoderException` is caught; the error message goes to
`Log::info` and `Log::severe` — not to the G-code stream — and the routine
returns, so the group's paths produce no motion commands. -/
def writeInfills (cfg : GcoderGrueConfig) (sliceId : ℕ) (extruder : Extruder)
    (infillPaths : List (List Point2)) : GcodeOut :=
  let header := "(infills: " ++ toString infillPaths.length ++ ")"
  match calcInfillExtrusion cfg extruder.id sliceId with
  | Except.error err =>
      { out := [header]
        log := ["ERROR writing infills in slice " ++ toString sliceId ++
            " for extruder " ++ toString extruder.id ++ " : " ++ err] }
  | Except.ok extrusion =>
      { out := [header] ++ snortLines extrusion ++
          (infillPaths.map writePathLines).join ++ snortLines extrusion
        log := [] }

/-- `GCoder::writeSupport` (gcoder.cc lines 257–282): same structure as
`writeInfills` (it resolves the same infill profile). -/
def writeSupport (cfg : GcoderGrueConfig) (sliceId : ℕ) (extruder : Extruder)
    (supportPaths : List (List Point2)) : GcodeOut :=
  let header := "(support: " ++ toString supportPaths.length ++ ")"
  match calcInfillExtrusion cfg extruder.id sliceId with
  | Except.error err =>
      { out := [header]
        log := ["ERROR writing support in slice " ++ toString sliceId ++
            " for extruder " ++ toString extruder.id ++ " : " ++ err] }
  | Except.ok extrusion =>
      { out := [header] ++ snortLines extrusion ++
          (supportPaths.map writePathLines).join ++ snortLines extrusion
        log := [] }

/-- The infill/support group sequencing of `GCoder::writeSlice` (gcoder.cc
lines 635–642): each enabled group is emitted in order; an error inside one
group never prevents the following group (errors are caught inside the
group routines). -/
def writeInfillSupportGroups (cfg : GcoderGrueConfig) (sliceId : ℕ)
    (extruder : Extruder) (infillPaths supportPaths : List (List Point2)) :
    GcodeOut :=
  let gInf := if cfg.doInfills then writeInfills cfg sliceId extruder infillPaths
    else ⟨[], []⟩
  let gSup := if cfg.doSupport then writeSupport cfg sliceId extruder supportPaths
    else ⟨[], []⟩
  ⟨gInf.out ++ gSup.out, gInf.log ++ gSup.log⟩

/-- A concrete configuration whose extruder 0 requests the infill profile
"fast", which is absent from `extrusionProfiles`. -/
def missingProfileCfg : GcoderGrueConfig :=
  { extruders := [⟨0, false, 2, "first", "insets", "fast", "outlines"⟩]
    extrusionProfiles := [("slow", ⟨1, 1⟩)]
    scalingFactor := 1
    doInfills := true
    doInsets := true
    doOutlines := true
    doSupport := true }

/-- **C7, counterexample.** The claim as stated fails: with a missing infill
profile, the emitted G-code for the group is exactly the group header — the
error text appears only in the log, never as a comment in the G-code
output. -/
theorem c7_counterexample :
    (writeInfills missingProfileCfg 1
        ⟨0, false, 2, "first", "insets", "fast", "outlines"⟩
        [[⟨0,0⟩]]).out = ["(infills: 1)"] ∧
    (writeInfills missingProfileCfg 1
        ⟨0, false, 2, "first", "insets", "fast", "outlines"⟩
        [[⟨0,0⟩]]).log =
      ["ERROR writing infills in slice 1 for extruder 0 : " ++
        "Failed to find extrusion profile fast"] := ⟨rfl, rfl⟩

/-- **C7, amended.** Whenever the requested extrusion profile is missing
during emission of the infill group, the GCoder logs an error message (the
G-code output receives only the group's header comment — no error comment
and no motion command), the group is skipped, and emission continues with
the remaining groups; the job does not terminate. -/
theorem c7_missing_profile_skips_group (cfg : GcoderGrueConfig)
    (sliceId : ℕ) (extruder : Extruder)
    (infillPaths supportPaths : List (List Point2)) (msg : String)
    (herr : calcInfillExtrusion cfg extruder.id sliceId = Except.error msg)
    (hdi : cfg.doInfills = true) (hds : cfg.doSupport = true) :
    (writeInfills cfg sliceId extruder infillPaths).out =
      ["(infills: " ++ toString infillPaths.length ++ ")"] ∧
    (writeInfills cfg sliceId extruder infillPaths).log =
      ["ERROR writing infills in slice " ++ toString sliceId ++
        " for extruder " ++ toString extruder.id ++ " : " ++ msg] ∧
    (writeInfillSupportGroups cfg sliceId extruder infillPaths
        supportPaths).out =
      (writeInfills cfg sliceId extruder infillPaths).out ++
        (writeSupport cfg sliceId extruder supportPaths).out := by
  refine ⟨?_, ?_, ?_⟩
  · unfold writeInfills
    rw [herr]
  · unfold writeInfills
    rw [herr]
  · unfold writeInfillSupportGroups
    rw [hdi, hds]
    rfl

/-- Witness for the amended C7 at the concrete missing-profile
configuration: the support group's header is still emitted after the failed
infill group. -/
theorem c7_missing_profile_skips_group_witness :
    (writeInfillSupportGroups missingProfileCfg 1
        ⟨0, false, 2, "first", "insets", "fast", "outlines"⟩
        [[⟨0,0⟩]] [[⟨1,1⟩]]).out =
      (writeInfills missingProfileCfg 1
        ⟨0, false, 2, "first", "insets", "fast", "outlines"⟩ [[⟨0,0⟩]]).out ++
      (writeSupport missingProfileCfg 1
        ⟨0, false, 2, "first", "insets", "fast", "outlines"⟩ [[⟨1,1⟩]]).out :=
  (c7_missing_profile_skips_group missingProfileCfg 1
      ⟨0, false, 2, "first", "insets", "fast", "outlines"⟩
      [[⟨0,0⟩]] [[⟨1,1⟩]]
      ("Failed to find extrusion profile fast") rfl rfl rfl).2.2

/-- C++ streams print `bool` as `1`/`0`. -/
def boolGcode (b : Bool) : String := if b then "1" else "0"

/-- `GCoder::writeGCodeConfig` (gcoder.cc lines 670–694) as the list of lines
it writes: the fixed banner, a generator line, the wall-clock timestamp line
(`hal9000.clock.now()`), the title, the extruder count, and the three group
toggles.  `progName`/`versionStr` stand for `getMiracleGrueProgramName()` /
`getMiracleGrueVersionStr()`, and `now` for the clock reading at the moment
of the run. -/
def writeGCodeConfigLines (progName versionStr : String)
    (cfg : GcoderGrueConfig) (title now : String) : List String :=
  ["",
   "(Makerbot Industries)",
   "(This file contains digital fabrication directives in gcode format)",
   "(For your 3D printer)",
   "(http://wiki.makerbot.com/gcode)",
   "(" ++ "* " ++ "Generated by " ++ progName ++ " " ++ versionStr ++ ")",
   "(" ++ "* " ++ now ++ ")",
   "(" ++ "* " ++ title ++ ")",
   "(" ++ "* " ++ toString cfg.extruders.length ++ " extruder" ++
     (if cfg.extruders.length = 0 then "s" else "") ++ ")",
   "(" ++ "* " ++ "Extrude infills: " ++ boolGcode cfg.doInfills ++ ")",
   "(" ++ "* " ++ "Extrude insets: " ++ boolGcode cfg.doInsets ++ ")",
   "(" ++ "* " ++ "Extrude outlines: " ++ boolGcode cfg.doOutlines ++ ")",
   ""]

set_option maxRecDepth 4096 in
/-- **C1, counterexample.** The pipeline output is not a pure function of
(mesh, config): `writeGCodeConfig` writes the wall-clock time into the
G-code stream, so two runs on identical inputs whose clock readings differ
produce different bytes. -/
theorem c1_counterexample :
    writeGCodeConfigLines "Miracle-Grue" "0.0.1" missingProfileCfg
        "model.stl" "Mon" ≠
      writeGCodeConfigLines "Miracle-Grue" "0.0.1" missingProfileCfg
        "model.stl" "Tue" := by
  intro h
  have h6 := congrArg (fun l => l.getD 6 "") h
  simp only [writeGCodeConfigLines, List.getD_cons_succ, List.getD_cons_zero]
    at h6
  exact absurd h6 (by decide)

/-- **C1, amended.** The G-code output is a pure function of
(mesh, config, clock reading): two runs on the same (mesh, config) agree on
every line of the configuration header except the timestamp line (index 6),
which holds the clock reading of the run; with equal clock readings the
output is byte-identical. -/
theorem c1_determinism_amended (progName versionStr : String)
    (cfg : GcoderGrueConfig) (title now1 now2 : String) :
    (writeGCodeConfigLines progName versionStr cfg title now1).eraseIdx 6 =
      (writeGCodeConfigLines progName versionStr cfg title now2).eraseIdx 6 ∧
    (writeGCodeConfigLines progName versionStr cfg title now1).get? 6 =
      some ("(" ++ "* " ++ now1 ++ ")") := ⟨rfl, rfl⟩

/-- `size_t` modulus for the index arithmetic of `polygonLeadInAndLeadOut`. -/
def U64 : ℕ := 18446744073709551616

/-- The polygon indices read unconditionally at the top of
`polygonLeadInAndLeadOut` (gcoder.cc lines 116–143): `polygon[0]`,
`polygon[1]`, `polygon[count - 2]`, `polygon[count - 1]`, with `size_t`
wraparound on the subtractions. -/
def polygonAccessIndices (count : ℕ) : List ℕ :=
  [0, 1, (count + U64 - 2) % U64, (count + U64 - 1) % U64]

/-- `polygonLeadInAndLeadOut` (gcoder.cc lines 116–143).  The four vertex
reads happen before the volumetric-extruder test, exactly as in the source;
`none` marks an out-of-bounds read (undefined behaviour in C++).
`normalise` (a vector normalisation, which needs a square root) is abstracted
as a parameter: the claim under verification concerns only access safety,
not the lead geometry. -/
def polygonLeadInAndLeadOut (normalise : Point2 → Point2)
    (polygon : List Point2) (extruder : Extruder) (leadIn leadOut : ℚ) :
    Option (Point2 × Point2) :=
  match polygon.get? 0, polygon.get? 1,
      polygon.get? ((polygon.length + U64 - 2) % U64),
      polygon.get? ((polygon.length + U64 - 1) % U64) with
  | some a, some b, some c, some d =>
      if extruder.isVolumetric then some (a, d)
      else
        let ab := normalise (b - a)
        let cd := normalise (d - c)
        some (⟨a.x - ab.x * leadIn, a.y - ab.y * leadIn⟩,
          ⟨d.x + cd.x * leadOut, d.y + cd.y * leadOut⟩)
  | _, _, _, _ => none

/-- **C10.** `polygonLeadInAndLeadOut` reads `polygon[0]`, `polygon[1]`,
`polygon[count-2]`, `polygon[count-1]` unconditionally, before the
volumetric check; for every polygon with at least 2 vertices all four
accesses are in bounds and the function produces a result, and there is no
guard for smaller inputs: every polygon with fewer than 2 vertices makes an
out-of-bounds access. -/
theorem c10_polygon_access_safety :
    (∀ count, 2 ≤ count → ∀ i ∈ polygonAccessIndices count, i < count) ∧
    (∀ (normalise : Point2 → Point2) (polygon : List Point2)
        (extruder : Extruder) (leadIn leadOut : ℚ), 2 ≤ polygon.length →
      (polygonLeadInAndLeadOut normalise polygon extruder leadIn
          leadOut).isSome = true) ∧
    (∀ (normalise : Point2 → Point2) (polygon : List Point2)
        (extruder : Extruder) (leadIn leadOut : ℚ), polygon.length < 2 →
      polygonLeadInAndLeadOut normalise polygon extruder leadIn leadOut =
        none) := by
  have hidx : ∀ count, 2 ≤ count → ∀ i ∈ polygonAccessIndices count,
      i < count := by
    intro count h2 i hi
    simp only [polygonAccessIndices, List.mem_cons, List.mem_singleton,
      List.not_mem_nil, or_false] at hi
    have hU : U64 = 18446744073709551616 := rfl
    rcases hi with h | h | h | h
    · omega
    · omega
    · rw [hU] at h
      omega
    · rw [hU] at h
      omega
  refine ⟨hidx, ?_, ?_⟩
  · intro normalise polygon extruder leadIn leadOut h2
    have h0 : 0 < polygon.length := by omega
    have h1 : 1 < polygon.length := by omega
    have hc : (polygon.length + U64 - 2) % U64 < polygon.length :=
      hidx polygon.length h2 _ (by simp [polygonAccessIndices])
    have hd : (polygon.length + U64 - 1) % U64 < polygon.length :=
      hidx polygon.length h2 _ (by simp [polygonAccessIndices])
    unfold polygonLeadInAndLeadOut
    rw [List.get?_eq_get h0, List.get?_eq_get h1, List.get?_eq_get hc,
      List.get?_eq_get hd]
    by_cases hv : extruder.isVolumetric = true <;> simp [hv]
  · intro normalise polygon extruder leadIn leadOut hlt
    rcases polygon with _ | ⟨p, _ | ⟨q, rest⟩⟩
    · rfl
    · rfl
    · exact absurd hlt (by simp)

/-- Witness for C10: a 2-vertex polygon is processed, a 1-vertex polygon has
no in-bounds reading. -/
theorem c10_polygon_access_safety_witness :
    (polygonLeadInAndLeadOut id [⟨0,0⟩, ⟨1,1⟩]
        ⟨0, true, 2, "a", "b", "c", "d"⟩ 0 0).isSome = true ∧
    polygonLeadInAndLeadOut id [⟨0,0⟩]
        ⟨0, true, 2, "a", "b", "c", "d"⟩ 0 0 = none :=
  ⟨c10_polygon_access_safety.2.1 id [⟨0,0⟩, ⟨1,1⟩]
      ⟨0, true, 2, "a", "b", "c", "d"⟩ 0 0 (by simp),
   c10_polygon_access_safety.2.2 id [⟨0,0⟩]
      ⟨0, true, 2, "a", "b", "c", "d"⟩ 0 0 (by simp)⟩

end MG
